import Mathlib

/-!
# Verification development for the text-scraper repository

Shallow embedding of the two scraper scripts:
* `src/unnamed/part_000` (the "ennovi" variant): scroll stabilization, accordion/tab
  expansion, DOM content isolation, line normalization with the `isJavaScriptLine`
  code heuristic, BOM-prefixed CSV output, and a failure log.
* `src/textScraper.js` (the "interplex" variant): container lookup, line
  normalization without the code heuristic, plain CSV output, no failure log.

Strings are modelled as `List Char`; the per-line classifier, the split / trim /
filter pipeline, CSV serialization, slug derivation and the per-URL loop are
translated from the JavaScript sources.
-/

/-- Character list of a string literal (JS strings are sequences of code points). -/
def chars (s : String) : List Char := s.data

/-- The character class matched by `\s` in a JavaScript regular expression, which is
also the set trimmed by `String.prototype.trim`: ASCII whitespace, NBSP, the Unicode
space separators, the line separators and the BOM. -/
def isJsWs (c : Char) : Bool :=
  c == ' ' || c == '\t' || c == '\n' || c == '\r' || c == '\x0b' || c == '\x0c' ||
  c == '\u00A0' || c == '\u1680' ||
  (0x2000 ≤ c.toNat && c.toNat ≤ 0x200A) ||
  c == '\u2028' || c == '\u2029' || c == '\u202F' || c == '\u205F' ||
  c == '\u3000' || c == '\uFEFF'

/-- `text.split(/\r?\n/)`: split at each `\r\n` or lone `\n`; a `\r` not followed
by `\n` stays inside its line. -/
def splitLines : List Char → List (List Char)
  | [] => [[]]
  | '\r' :: '\n' :: t => [] :: splitLines t
  | '\n' :: t => [] :: splitLines t
  | c :: t =>
    match splitLines t with
    | [] => [[c]]
    | l :: ls => (c :: l) :: ls

/-- `line.trim()`: drop JS whitespace from both ends. -/
def jsTrim (l : List Char) : List Char :=
  ((l.dropWhile isJsWs).reverse.dropWhile isJsWs).reverse

/-- Does `p` hold of some suffix of the list?  Used to model unanchored
regular-expression search (`RegExp.prototype.test`). -/
def anySuffix (p : List Char → Bool) : List Char → Bool
  | [] => p []
  | c :: t => p (c :: t) || anySuffix p (t)

/-- Unanchored substring search: `needle` occurs somewhere in `hay`. -/
def containsSub (needle hay : List Char) : Bool :=
  anySuffix (fun s => needle.isPrefixOf s) hay

/-- Unanchored search for `w` immediately followed by one `\s` character
(models a regex fragment such as the async/await patterns of the classifier). -/
def subThenWs (w : List Char) (hay : List Char) : Bool :=
  anySuffix (fun s => w.isPrefixOf s &&
    (match s.drop w.length with
     | c :: _ => isJsWs c
     | [] => false)) hay

/-- The opening curly brace character. -/
def openBrace : Char := '\x7b'

/-- The closing curly brace character. -/
def closeBrace : Char := '\x7d'

/-- A character matched by `.` in a JavaScript regex without the `s` flag:
anything except the four line terminators. -/
def dotOk (c : Char) : Bool :=
  !(c == '\n' || c == '\r' || c == '\u2028' || c == '\u2029')

/-- The statement keywords of the first classifier pattern. -/
def jsKeywords : List (List Char) :=
  [chars "var", chars "let", chars "const", chars "function", chars "if",
   chars "else", chars "for", chars "while", chars "return", chars "class"]

/-- Pattern `^(var|let|const|function|if|else|for|while|return|class)\s`. -/
def patKeyword (line : List Char) : Bool :=
  jsKeywords.any (fun k => k.isPrefixOf line &&
    (match line.drop k.length with
     | c :: _ => isJsWs c
     | [] => false))

/-- Pattern `jQuery|^\$\(|\.ready\(`. -/
def patJQuery (line : List Char) : Bool :=
  containsSub (chars "jQuery") line || (chars "$(").isPrefixOf line ||
  containsSub (chars ".ready(") line

/-- Pattern `\.ajax\(|\.get\(|\.post\(`. -/
def patAjax (line : List Char) : Bool :=
  containsSub (chars ".ajax(") line || containsSub (chars ".get(") line ||
  containsSub (chars ".post(") line

/-- Pattern `console\.(log|error|warn)`. -/
def patConsole (line : List Char) : Bool :=
  containsSub (chars "console.log") line || containsSub (chars "console.error") line ||
  containsSub (chars "console.warn") line

/-- Pattern `document\.(getElementById|querySelector|addEventListener)`. -/
def patDocument (line : List Char) : Bool :=
  containsSub (chars "document.getElementById") line ||
  containsSub (chars "document.querySelector") line ||
  containsSub (chars "document.addEventListener") line

/-- Pattern `window\.(location|addEventListener|setTimeout)`. -/
def patWindow (line : List Char) : Bool :=
  containsSub (chars "window.location") line ||
  containsSub (chars "window.addEventListener") line ||
  containsSub (chars "window.setTimeout") line

/-- Pattern `\.then\(|\.catch\(|async\s|await\s`. -/
def patPromise (line : List Char) : Bool :=
  containsSub (chars ".then(") line || containsSub (chars ".catch(") line ||
  subThenWs (chars "async") line || subThenWs (chars "await") line

/-- Pattern `^function\s*\(`. -/
def patAnonFun (line : List Char) : Bool :=
  (chars "function").isPrefixOf line &&
  (match (line.drop 8).dropWhile isJsWs with
   | c :: _ => c == '('
   | [] => false)

/-- Pattern `=>\s*{`. -/
def patArrow (line : List Char) : Bool :=
  anySuffix (fun s => (chars "=>").isPrefixOf s &&
    (match (s.drop 2).dropWhile isJsWs with
     | c :: _ => c == openBrace
     | [] => false)) line

/-- Pattern `^\{.*\}$`: first character an opening brace, last character a closing
brace, every character in between matched by `.`. -/
def patBraces (line : List Char) : Bool :=
  match line with
  | [] => false
  | c :: rest =>
    c == openBrace &&
    (match rest.reverse with
     | [] => false
     | d :: midRev => d == closeBrace && midRev.all dotOk)

/-- Pattern `^}$`. -/
def patCloseBrace (line : List Char) : Bool :=
  line == [closeBrace]

/-- Pattern `;\s*$`: a semicolon followed by nothing but whitespace. -/
def patSemicolon (line : List Char) : Bool :=
  match line.reverse.dropWhile isJsWs with
  | c :: _ => c == ';'
  | [] => false

/-- The ordered pattern list of `isJavaScriptLine` (part_000 lines 42-55). -/
def jsPatterns : List (List Char → Bool) :=
  [patKeyword, patJQuery, patAjax, patConsole, patDocument, patWindow,
   patPromise, patAnonFun, patArrow, patBraces, patCloseBrace, patSemicolon]

/-- `isJavaScriptLine` (part_000 lines 41-58): `jsPatterns.some((p) => p.test(line))`. -/
def isJavaScriptLine (line : List Char) : Bool :=
  jsPatterns.any (fun p => p line)

/-- Normalization pipeline of `src/textScraper.js` lines 67-70: split, trim,
drop empty lines (no code-heuristic filter in this variant). -/
def interplexLines (contentText : List Char) : List (List Char) :=
  (((splitLines contentText).map jsTrim).filter (fun l => decide (0 < l.length)))

/-- Normalization pipeline of `src/unnamed/part_000` lines 267-271: split, trim,
drop empty lines, drop lines flagged by `isJavaScriptLine`. -/
def ennoviLines (contentText : List Char) : List (List Char) :=
  ((((splitLines contentText).map jsTrim).filter
      (fun l => decide (0 < l.length))).filter
    (fun l => !isJavaScriptLine l))

example : splitLines (chars "a\r\nb\nc") = [chars "a", chars "b", chars "c"] := by decide
example : jsTrim (chars "  hi \t") = chars "hi" := by decide
example : isJavaScriptLine (chars "function foo() \x7b") = true := by decide
example : isJavaScriptLine (chars "Contact us") = false := by decide
example : ennoviLines (chars "Welcome\n\n  \nfunction foo() \x7b\nContact us") =
    [chars "Welcome", chars "Contact us"] := by decide

/-- First step of the slug derivation shared by both scripts (textScraper.js
lines 79-82, part_000 lines 284-287): `.replace(/\//g, "_")` turns every slash
of the pathname into an underscore. -/
def replaceSlashes (p : List Char) : List Char :=
  p.map (fun c => if c == '/' then '_' else c)

/-- `.replace(/^_+|_+$/g, "")`: remove the leading and the trailing run of
underscores. -/
def stripUnders (p : List Char) : List Char :=
  ((p.dropWhile (fun c => c == '_')).reverse.dropWhile (fun c => c == '_')).reverse

/-- Combined slug computation with the `homepage` fallback for an empty result. -/
def pagePathSlug (pathname : List Char) : List Char :=
  if (stripUnders (replaceSlashes pathname)).isEmpty then chars "homepage"
  else stripUnders (replaceSlashes pathname)

/-- Model of the external WHATWG URL collaborator used via `new URL(url).pathname`:
for a well-formed absolute URL `scheme://host[/path][?query][#fragment]` this
returns the path component, or `/` when the path is empty.  (Normalization such as
percent-encoding is outside the scope of the claims.) -/
def urlPathname (u : List Char) : List Char :=
  let afterScheme := go u
  let rest := afterScheme.dropWhile (fun c => !(c == '/' || c == '?' || c == '#'))
  let path := rest.takeWhile (fun c => !(c == '?' || c == '#'))
  if path.isEmpty then chars "/" else path
where
  /-- Drop everything through the first occurrence of `://`. -/
  go : List Char → List Char
    | [] => []
    | c :: t =>
      if (chars "://").isPrefixOf (c :: t) then (c :: t).drop 3 else go t

/-- Output CSV filename of textScraper.js line 86 (directory prefix aside). -/
def interplexFileName (u : List Char) : List Char :=
  chars "interplex_" ++ pagePathSlug (urlPathname u) ++ chars "_content.csv"

/-- Output CSV filename of part_000 line 289 (directory prefix aside). -/
def ennoviFileName (u : List Char) : List Char :=
  chars "ennovi_" ++ pagePathSlug (urlPathname u) ++ chars "_content.csv"

/-- `text.replace(/"/g, '""')`: double every internal double quote. -/
def csvEscape (text : List Char) : List Char :=
  (text.map (fun c => if c == '"' then ['"', '"'] else [c])).flatten

/-- One quoted CSV field: `"${text.replace(/"/g, '""')}"`. -/
def csvField (text : List Char) : List Char :=
  '"' :: (csvEscape text ++ ['"'])

/-- CSV serialization of textScraper.js lines 90-92: header row then one quoted
field per line, joined by newlines. -/
def interplexCsv (ls : List (List Char)) : List Char :=
  chars "\"Extracted Text\"\n" ++ List.intercalate (chars "\n") (ls.map csvField)

/-- CSV serialization of part_000 lines 293-296: a BOM, then the header row, then
one quoted field per line, joined by newlines. -/
def ennoviCsv (ls : List (List Char)) : List Char :=
  chars "\uFEFF" ++ chars "\"Extracted Text\"\n" ++
    List.intercalate (chars "\n") (ls.map csvField)

/-- Per-URL result of the external browser collaborator, as observed by the main
loop of part_000: navigation (or any later page interaction) threw, or no
container div matched either selector, or a container was found and yielded a
text block. -/
inductive Outcome where
  | navError (msg : List Char)
  | noContainer
  | content (text : List Char)

/-- One iteration of the part_000 main loop (lines 200-310) per URL, given that
iteration's browser outcome: either a written CSV artifact `(filename, data)` or
a failure record `(url, reason)`. -/
def ennoviStep (url : List Char) : Outcome → (List Char × List Char) ⊕ (List Char × List Char)
  | .navError m => .inr (url, m)
  | .noContainer => .inr (url, chars "No matching Elementor div found")
  | .content t =>
    let ls := ennoviLines t
    if ls.isEmpty then .inr (url, chars "No visible text found")
    else .inl (ennoviFileName url, ennoviCsv ls)

/-- The part_000 main loop over the target list: sequential, first to last,
accumulating written CSV artifacts and failure records in order. -/
def runEnnovi : List (List Char × Outcome) → List (List Char × List Char) × List (List Char × List Char)
  | [] => ([], [])
  | (url, oc) :: rest =>
    let r := runEnnovi rest
    match ennoviStep url oc with
    | .inl artifact => (artifact :: r.1, r.2)
    | .inr failure => (r.1, failure :: r.2)

/-- Does the iteration for this URL write a CSV artifact? -/
def producesCsv : (List Char × Outcome) → Bool
  | (_, .content t) => !(ennoviLines t).isEmpty
  | _ => false

/-- The reason string part_000 records for a failing outcome. -/
def failReason : Outcome → List Char
  | .navError m => m
  | .noContainer => chars "No matching Elementor div found"
  | .content _ => chars "No visible text found"

/-- The failure log artifact of part_000 lines 313-321: written only when at
least one URL failed; a count line, a blank line, then one URL/Reason block per
failure in order, blocks joined by newlines. -/
def ennoviFailLog (fails : List (List Char × List Char)) : Option (List Char) :=
  if fails.isEmpty then none
  else some (chars "Failed to scrape " ++ chars (Nat.repr fails.length) ++
    chars " URL(s):\n\n" ++
    List.intercalate (chars "\n")
      (fails.map (fun f => chars "URL: " ++ f.1 ++ chars "\nReason: " ++ f.2 ++ chars "\n")))

example : pagePathSlug (chars "/about/team") = chars "about_team" := by decide
example : urlPathname (chars "https://example.com/about?x=1") = chars "/about" := by decide
example : urlPathname (chars "https://example.com") = chars "/" := by decide
example : csvField (chars "She said \"hi\"") = chars "\"She said \"\"hi\"\"\"" := by decide

mutual
/-- A DOM node as seen by the extraction closure of part_000 lines 239-264:
either a text node or an element carrying its tag name, `id` attribute, class
list, ARIA `role` attribute and children. -/
inductive DomNode where
  | textNode (s : List Char)
  | elem (tag idAttr : List Char) (classes : List (List Char)) (role : List Char)
      (children : DomForest)
/-- An ordered sequence of sibling DOM nodes. -/
inductive DomForest where
  | nil
  | cons (hd : DomNode) (tl : DomForest)
end

/-- Selector `script, style, noscript` applied to one node. -/
def selScriptStyle : DomNode → Bool
  | .textNode _ => false
  | .elem tag _ _ _ _ =>
    tag == chars "script" || tag == chars "style" || tag == chars "noscript"

/-- Selector `header, [role='banner'], .header, #header, .site-header`. -/
def selHeader : DomNode → Bool
  | .textNode _ => false
  | .elem tag idAttr classes role _ =>
    tag == chars "header" || role == chars "banner" ||
    classes.contains (chars "header") || idAttr == chars "header" ||
    classes.contains (chars "site-header")

/-- Selector `footer, [role='contentinfo'], .footer, #footer, .site-footer`. -/
def selFooter : DomNode → Bool
  | .textNode _ => false
  | .elem tag idAttr classes role _ =>
    tag == chars "footer" || role == chars "contentinfo" ||
    classes.contains (chars "footer") || idAttr == chars "footer" ||
    classes.contains (chars "site-footer")

/-- Selector `.elementor-hidden-desktop.elementor-hidden-tablet.elementor-hidden-mobile`:
all three breakpoint-hiding classes present simultaneously. -/
def selHidden : DomNode → Bool
  | .textNode _ => false
  | .elem _ _ classes _ _ =>
    classes.contains (chars "elementor-hidden-desktop") &&
    classes.contains (chars "elementor-hidden-tablet") &&
    classes.contains (chars "elementor-hidden-mobile")

mutual
/-- `clone.querySelectorAll(sel).forEach((n) => n.remove())` on a detached copy:
every proper descendant matching `p` is removed together with its subtree; the
root itself is never tested (`querySelectorAll` only matches descendants). -/
def removeMatching (p : DomNode → Bool) : DomNode → DomNode
  | .textNode s => .textNode s
  | .elem tag idAttr classes role ch => .elem tag idAttr classes role (removeMatchingF p ch)
/-- Sibling-list version of `removeMatching`. -/
def removeMatchingF (p : DomNode → Bool) : DomForest → DomForest
  | .nil => .nil
  | .cons c rest =>
    if p c then removeMatchingF p rest
    else .cons (removeMatching p c) (removeMatchingF p rest)
end

mutual
/-- `node.textContent`: concatenation of all text-node data in document order,
whether or not the nodes are rendered visible. -/
def textContent : DomNode → List Char
  | .textNode s => s
  | .elem _ _ _ _ ch => textContentF ch
/-- Sibling-list version of `textContent`. -/
def textContentF : DomForest → List Char
  | .nil => []
  | .cons c rest => textContent c ++ textContentF rest
end

/-- The four removal passes of part_000 lines 241-260 in source order:
script/style/noscript, then header chrome, then footer chrome, then
sections hidden on every breakpoint. -/
def isolate (root : DomNode) : DomNode :=
  removeMatching selHidden
    (removeMatching selFooter (removeMatching selHeader (removeMatching selScriptStyle root)))

/-- The extraction closure of part_000 lines 239-264: prune the detached copy and
return its full `textContent`. -/
def contentText (root : DomNode) : List Char :=
  textContent (isolate root)

/-- The union of the four removal selectors. -/
def selAny (n : DomNode) : Bool :=
  selScriptStyle n || selHeader n || selFooter n || selHidden n

/-- Build a sibling forest from a list of nodes. -/
def forestOf : List DomNode → DomForest
  | [] => .nil
  | c :: t => .cons c (forestOf t)

/-- A container exercising every removal rule of the isolation step: retained
text, each script/style/noscript form, each header and footer convention, a
section hidden on all three breakpoints, a section hidden on only two
breakpoints (whose text must be retained), and a nested removal. -/
def exemplarContainer : DomNode :=
  .elem (chars "div") [] [] [] (forestOf
    [.textNode (chars "Keep1 "),
     .elem (chars "script") [] [] [] (forestOf [.textNode (chars "var x = 1;")]),
     .elem (chars "style") [] [] [] (forestOf [.textNode (chars "body")]),
     .elem (chars "noscript") [] [] [] (forestOf [.textNode (chars "enable js")]),
     .elem (chars "header") [] [] [] (forestOf [.textNode (chars "HEAD1")]),
     .elem (chars "div") [] [] (chars "banner") (forestOf [.textNode (chars "HEAD2")]),
     .elem (chars "div") [] [chars "header"] [] (forestOf [.textNode (chars "HEAD3")]),
     .elem (chars "div") (chars "header") [] [] (forestOf [.textNode (chars "HEAD4")]),
     .elem (chars "div") [] [chars "site-header"] [] (forestOf [.textNode (chars "HEAD5")]),
     .elem (chars "footer") [] [] [] (forestOf [.textNode (chars "FOOT1")]),
     .elem (chars "div") [] [] (chars "contentinfo") (forestOf [.textNode (chars "FOOT2")]),
     .elem (chars "div") [] [chars "footer"] [] (forestOf [.textNode (chars "FOOT3")]),
     .elem (chars "div") (chars "footer") [] [] (forestOf [.textNode (chars "FOOT4")]),
     .elem (chars "div") [] [chars "site-footer"] [] (forestOf [.textNode (chars "FOOT5")]),
     .elem (chars "section") []
       [chars "elementor-hidden-desktop", chars "elementor-hidden-tablet",
        chars "elementor-hidden-mobile"] [] (forestOf [.textNode (chars "GONE")]),
     .elem (chars "section") []
       [chars "elementor-hidden-desktop", chars "elementor-hidden-tablet"] []
       (forestOf [.textNode (chars "Keep2 ")]),
     .elem (chars "div") [] [] [] (forestOf
       [.elem (chars "script") [] [] [] (forestOf [.textNode (chars "JS")]),
        .textNode (chars "Keep3")])])

example : contentText exemplarContainer = chars "Keep1 Keep2 Keep3" := by decide

/-- A prefix of a list with no leading `p`-character also has no leading
`p`-character. -/
theorem dropWhile_eq_self_of_isPre {p : Char → Bool} {z u : List Char}
    (hz : z <+: u) (hu : List.dropWhile p u = u) : List.dropWhile p z = z := by
  cases z with
  | nil => simp
  | cons c t =>
    obtain ⟨r, hr⟩ := hz
    have hc : p c = false := by
      by_contra hcc
      have hc' : p c = true := by simpa using hcc
      rw [← hr, List.cons_append, List.dropWhile_cons, if_pos hc'] at hu
      have hle := (List.dropWhile_suffix (l := t ++ r) p).length_le
      rw [hu] at hle
      simp only [List.length_cons] at hle
      omega
    rw [List.dropWhile_cons, if_neg (by simp [hc])]

/-- `jsTrim` in terms of the library operations. -/
theorem jsTrim_eq_rdrop (l : List Char) :
    jsTrim l = List.rdropWhile isJsWs (List.dropWhile isJsWs l) := rfl

/-- Trimming is idempotent: a trimmed line has no whitespace left at either end. -/
theorem jsTrim_idem (l : List Char) : jsTrim (jsTrim l) = jsTrim l := by
  rw [jsTrim_eq_rdrop, jsTrim_eq_rdrop]
  have h1 : List.dropWhile isJsWs (List.dropWhile isJsWs l) = List.dropWhile isJsWs l :=
    List.dropWhile_idempotent _ _
  have hz := List.rdropWhile_prefix isJsWs (List.dropWhile isJsWs l)
  have h2 := dropWhile_eq_self_of_isPre hz h1
  rw [h2, List.rdropWhile_idempotent]

/-- Every line surviving the interplex normalization is already trimmed and
non-empty. -/
theorem mem_interplexLines {text l : List Char} (h : l ∈ interplexLines text) :
    jsTrim l = l ∧ l ≠ [] := by
  unfold interplexLines at h
  rw [List.mem_filter] at h
  obtain ⟨hmem, hlen⟩ := h
  rw [List.mem_map] at hmem
  obtain ⟨orig, -, rfl⟩ := hmem
  refine ⟨jsTrim_idem orig, ?_⟩
  intro hnil
  rw [hnil] at hlen
  simp at hlen

/-- The ennovi pipeline is the interplex pipeline followed by the code filter. -/
theorem ennoviLines_eq (text : List Char) :
    ennoviLines text = (interplexLines text).filter (fun l => !isJavaScriptLine l) := rfl

/-- Splitting a prefix test against an appended needle. -/
theorem isPrefixOf_append_split {a b s : List Char}
    (h : (a ++ b).isPrefixOf s = true) :
    a.isPrefixOf s = true ∧ b.isPrefixOf (s.drop a.length) = true := by
  rw [ List.isPrefixOf_iff_prefix] at h
  obtain ⟨r, hr⟩ := h
  rw [List.append_assoc] at hr
  constructor
  · rw [ List.isPrefixOf_iff_prefix]
    exact ⟨b ++ r, hr⟩
  · rw [ List.isPrefixOf_iff_prefix, ← hr, List.drop_left]
    exact ⟨r, rfl⟩

/-- `anySuffix` is monotone in its predicate. -/
theorem anySuffix_mono {p q : List Char → Bool}
    (hpq : ∀ s, p s = true → q s = true) (l : List Char)
    (h : anySuffix p l = true) : anySuffix q l = true := by
  induction l with
  | nil => exact hpq [] h
  | cons c t ih =>
    simp only [anySuffix, Bool.or_eq_true] at h ⊢
    cases h with
    | inl h => exact Or.inl (hpq _ h)
    | inr h => exact Or.inr (ih h)

/-- A substring occurrence of `w` followed by a whitespace character yields a
match of the regex fragment `w\s`. -/
theorem containsSub_then_ws {w line : List Char} {c : Char} (hc : isJsWs c = true)
    (h : containsSub (w ++ [c]) line = true) : subThenWs w line = true := by
  unfold containsSub at h
  unfold subThenWs
  refine anySuffix_mono (fun s hs => ?_) line h
  obtain ⟨h1, h2⟩ := isPrefixOf_append_split hs
  simp only [h1, Bool.true_and]
  cases hdrop : s.drop w.length with
  | nil => rw [hdrop] at h2; simp [List.isPrefixOf] at h2
  | cons d t =>
    rw [hdrop] at h2
    simp [List.isPrefixOf] at h2
    rw [← h2]
    exact hc

/-- Removal does not change the shell attributes a selector inspects. -/
theorem selScriptStyle_remove (p : DomNode → Bool) (n : DomNode) :
    selScriptStyle (removeMatching p n) = selScriptStyle n := by
  cases n <;> rfl

/-- Removal does not change the shell attributes the header selector inspects. -/
theorem selHeader_remove (p : DomNode → Bool) (n : DomNode) :
    selHeader (removeMatching p n) = selHeader n := by
  cases n <;> rfl

/-- Removal does not change the shell attributes the footer selector inspects. -/
theorem selFooter_remove (p : DomNode → Bool) (n : DomNode) :
    selFooter (removeMatching p n) = selFooter n := by
  cases n <;> rfl

/-- Removal does not change the shell attributes the hidden selector inspects. -/
theorem selHidden_remove (p : DomNode → Bool) (n : DomNode) :
    selHidden (removeMatching p n) = selHidden n := by
  cases n <;> rfl

mutual
/-- The four sequential removal passes are one pass with the union selector. -/
theorem chain_eq_node : (n : DomNode) → isolate n = removeMatching selAny n
  | .textNode _ => rfl
  | .elem t i cs r ch => by
    simp only [isolate, removeMatching]
    exact congrArg (DomNode.elem t i cs r) (chain_eq_forest ch)
/-- Sibling-forest version of `chain_eq_node`. -/
theorem chain_eq_forest : (f : DomForest) →
    removeMatchingF selHidden (removeMatchingF selFooter (removeMatchingF selHeader
      (removeMatchingF selScriptStyle f))) = removeMatchingF selAny f
  | .nil => rfl
  | .cons c rest => by
    have hnode := chain_eq_node c
    have hrest := chain_eq_forest rest
    simp only [isolate] at hnode
    cases h1 : selScriptStyle c with
    | true =>
      simp only [removeMatchingF, h1, if_true, hrest, selAny, Bool.true_or]
    | false =>
      cases h2 : selHeader c with
      | true =>
        simp only [removeMatchingF, h1, if_false, selHeader_remove, h2, if_true, hrest,
          selAny, Bool.false_or, Bool.true_or]
      | false =>
        cases h3 : selFooter c with
        | true =>
          simp only [removeMatchingF, h1, if_false, selHeader_remove, h2,
            selFooter_remove, h3, if_true, hrest, selAny, Bool.false_or, Bool.true_or]
        | false =>
          cases h4 : selHidden c with
          | true =>
            simp only [removeMatchingF, h1, if_false, selHeader_remove, h2,
              selFooter_remove, h3, selHidden_remove, h4, if_true, hrest,
              selAny, Bool.false_or, Bool.or_true]
          | false =>
            simp only [removeMatchingF, h1, if_false, selHeader_remove, h2,
              selFooter_remove, h3, selHidden_remove, h4, hrest, hnode,
              selAny, Bool.false_or, Bool.or_false]
end

/-- Replacing slashes leaves no slash behind. -/
theorem slash_not_mem_replaceSlashes (p : List Char) : '/' ∉ replaceSlashes p := by
  intro h
  unfold replaceSlashes at h
  rw [List.mem_map] at h
  obtain ⟨c, -, hc⟩ := h
  by_cases h' : c = '/'
  · rw [if_pos (by simp [h'])] at hc
    exact absurd hc (by decide)
  · rw [if_neg (by simp [h'])] at hc
    exact h' hc

/-- Stripping underscores only removes characters. -/
theorem mem_of_mem_stripUnders {p : List Char} {x : Char} (h : x ∈ stripUnders p) :
    x ∈ p := by
  unfold stripUnders at h
  rw [List.mem_reverse] at h
  have h2 := List.Sublist.mem h
    (List.IsSuffix.sublist (List.dropWhile_suffix (fun c => c == '_')))
  rw [List.mem_reverse] at h2
  exact List.Sublist.mem h2
    (List.IsSuffix.sublist (List.dropWhile_suffix (fun c => c == '_')))

/-- The derived slug never contains a slash. -/
theorem slash_not_mem_slug (p : List Char) : '/' ∉ pagePathSlug p := by
  unfold pagePathSlug
  split
  · decide
  · intro hmem
    exact slash_not_mem_replaceSlashes p (mem_of_mem_stripUnders hmem)

/-- Doubling internal quotes doubles the quote count. -/
theorem csvEscape_count (t : List Char) :
    (csvEscape t).count '"' = 2 * t.count '"' := by
  induction t with
  | nil => rfl
  | cons c rest ih =>
    unfold csvEscape at ih ⊢
    simp only [List.map_cons, List.flatten_cons, List.count_append, ih, List.count_cons]
    by_cases hc : c = '"'
    · simp [hc]
      ring
    · have hcb : (c == '"') = false := by simp [hc]
      simp [List.count_singleton, hcb]

/-- C1: splitting the text block yields the raw line sequence
`["Welcome", "", "  ", "function foo() {", "Contact us"]`, and the part_000
normalization pipeline (trim, drop empties, drop code-like lines per
`isJavaScriptLine`) turns it into exactly `["Welcome", "Contact us"]`, in order. -/
theorem c1_pipeline_example :
    splitLines (chars "Welcome\n\n  \nfunction foo() \x7b\nContact us") =
      [chars "Welcome", chars "", chars "  ", chars "function foo() \x7b", chars "Contact us"] ∧
    ennoviLines (chars "Welcome\n\n  \nfunction foo() \x7b\nContact us") =
      [chars "Welcome", chars "Contact us"] := by
  constructor
  · decide
  · decide

/-- C2 counterexample: in the textScraper.js variant (which never applies the
code classifier) the line `alert(1);` survives normalization although the
classifier flags it, so the claim does not hold for both script variants. -/
theorem c2_counterexample :
    chars "alert(1);" ∈ interplexLines (chars "alert(1);") ∧
    isJavaScriptLine (chars "alert(1);") = true := by
  constructor
  · decide
  · decide

/-- C2 (amended): every line surviving normalization, in either variant, is
non-empty and invariant under trimming; lines surviving the part_000 variant are
additionally rejected by none of the code-heuristic patterns.  The interplex
variant does not run the classifier, so its survivors may match code patterns. -/
theorem c2_surviving_lines (text l : List Char)
    (h : l ∈ ennoviLines text ∨ l ∈ interplexLines text) :
    jsTrim l = l ∧ l ≠ [] ∧ (l ∉ ennoviLines text ∨ isJavaScriptLine l = false) := by
  have hip : l ∈ interplexLines text := by
    cases h with
    | inl h => rw [ennoviLines_eq] at h; exact (List.mem_filter.mp h).1
    | inr h => exact h
  obtain ⟨ht, hn⟩ := mem_interplexLines hip
  refine ⟨ht, hn, ?_⟩
  by_cases he : l ∈ ennoviLines text
  · right
    rw [ennoviLines_eq] at he
    have h2 := (List.mem_filter.mp he).2
    simpa using h2
  · left
    exact he

/-- C2 witness at a concrete input. -/
theorem c2_surviving_lines_witness :
    (chars "Welcome" ∈ ennoviLines (chars "Welcome\nfoo;") ∨
      chars "Welcome" ∈ interplexLines (chars "Welcome\nfoo;")) ∧
    (jsTrim (chars "Welcome") = chars "Welcome" ∧ chars "Welcome" ≠ [] ∧
      (chars "Welcome" ∉ ennoviLines (chars "Welcome\nfoo;") ∨
        isJavaScriptLine (chars "Welcome") = false)) :=
  ⟨Or.inl (by decide), c2_surviving_lines (chars "Welcome\nfoo;") (chars "Welcome")
    (Or.inl (by decide))⟩

/-- C3 counterexample: a line that is exactly an opening brace is NOT flagged by
the classifier (the brace pattern requires the line to end in a closing brace). -/
theorem c3_counterexample : isJavaScriptLine [openBrace] = false := by decide

/-- C3 (amended): the classifier flags any line that is exactly a closing brace,
any line ending in a semicolon, and any line that starts with an opening brace
and ends with a closing brace; a line that is exactly an opening brace is not
flagged. -/
theorem c3_brace_semicolon_rules (l m : List Char)
    (h1 : l.getLast? = some ';') (h2 : m.all dotOk = true) :
    isJavaScriptLine [closeBrace] = true ∧
    isJavaScriptLine l = true ∧
    isJavaScriptLine (openBrace :: (m ++ [closeBrace])) = true ∧
    isJavaScriptLine [openBrace] = false := by
  refine ⟨by decide, ?_, ?_, by decide⟩
  · have hh : l.reverse.head? = some ';' := by rw [List.head?_reverse]; exact h1
    have hsemi : patSemicolon l = true := by
      cases hrev : l.reverse with
      | nil => rw [hrev] at hh; simp at hh
      | cons d t =>
        rw [hrev] at hh
        simp only [List.head?_cons, Option.some.injEq] at hh
        unfold patSemicolon
        rw [hrev, hh]
        have hw : isJsWs ';' = false := by decide
        rw [List.dropWhile_cons, hw]
        simp
    unfold isJavaScriptLine
    rw [List.any_eq_true]
    exact ⟨patSemicolon, by simp [jsPatterns], hsemi⟩
  · have hbr : patBraces (openBrace :: (m ++ [closeBrace])) = true := by
      show (openBrace == openBrace &&
        (match (m ++ [closeBrace]).reverse with
         | [] => false
         | d :: midRev => d == closeBrace && midRev.all dotOk)) = true
      rw [List.reverse_append]
      simp [List.all_reverse, h2]
    unfold isJavaScriptLine
    rw [List.any_eq_true]
    exact ⟨patBraces, by simp [jsPatterns], hbr⟩

/-- C3 witness at a concrete input. -/
theorem c3_brace_semicolon_rules_witness :
    (chars "Hello;").getLast? = some ';' ∧ (chars "ab").all dotOk = true ∧
    (isJavaScriptLine [closeBrace] = true ∧
      isJavaScriptLine (chars "Hello;") = true ∧
      isJavaScriptLine (openBrace :: (chars "ab" ++ [closeBrace])) = true ∧
      isJavaScriptLine [openBrace] = false) :=
  ⟨by decide, by decide,
    c3_brace_semicolon_rules (chars "Hello;") (chars "ab") (by decide) (by decide)⟩

/-- C5: the slug derivation maps pathname `/` to `homepage`, `/about/team` to
`about_team`, `///a//` to `a`, and (replacing every slash, as witnessed by the
absence of slashes in any slug) strips leading and trailing underscores. -/
theorem c5_slug_derivation (p : List Char) :
    pagePathSlug (chars "/") = chars "homepage" ∧
    pagePathSlug (chars "/about/team") = chars "about_team" ∧
    pagePathSlug (chars "///a//") = chars "a" ∧
    '/' ∉ pagePathSlug p :=
  ⟨by decide, by decide, by decide, slash_not_mem_slug p⟩

/-- C8: the classifier is a pure function of its input line; classifying the same
line twice yields the same verdict. -/
theorem c8_classifier_deterministic (l1 l2 : List Char) (h : l1 = l2) :
    isJavaScriptLine l1 = isJavaScriptLine l2 := by rw [h]

/-- C8 witness at a concrete line. -/
theorem c8_classifier_deterministic_witness :
    chars "hello" = chars "hello" ∧
    isJavaScriptLine (chars "hello") = isJavaScriptLine (chars "hello") :=
  ⟨rfl, c8_classifier_deterministic (chars "hello") (chars "hello") rfl⟩

/-- C9: both output filenames are functions of the URL pathname alone: two URLs
with equal paths (regardless of host, query or fragment) get identical
filenames, so the later artifact overwrites the earlier one. -/
theorem c9_filename_from_path (u1 u2 : List Char)
    (h : urlPathname u1 = urlPathname u2) :
    interplexFileName u1 = interplexFileName u2 ∧
    ennoviFileName u1 = ennoviFileName u2 := by
  unfold interplexFileName ennoviFileName
  rw [h]
  exact ⟨rfl, rfl⟩

/-- C9 witness: different host, query and fragment, same path. -/
theorem c9_filename_from_path_witness :
    urlPathname (chars "https://example.com/about?x=1") =
      urlPathname (chars "http://other.net/about#top") ∧
    (interplexFileName (chars "https://example.com/about?x=1") =
        interplexFileName (chars "http://other.net/about#top") ∧
      ennoviFileName (chars "https://example.com/about?x=1") =
        ennoviFileName (chars "http://other.net/about#top")) :=
  ⟨by decide, c9_filename_from_path (chars "https://example.com/about?x=1")
    (chars "http://other.net/about#top") (by decide)⟩

/-- C6 counterexample: the part_000 CSV does not begin with the header row — its
first character is the U+FEFF byte-order mark. -/
theorem c6_counterexample :
    (chars "\"Extracted Text\"").isPrefixOf (ennoviCsv [chars "a"]) = false := by decide

/-- C6 (amended): the interplex CSV begins with the header row `"Extracted
Text"`; the part_000 CSV is the same serialization preceded by a U+FEFF
byte-order mark; every extracted line is wrapped in double quotes with internal
quotes doubled (so the quote count doubles plus the two delimiters), and the
line `She said "hi"` serializes to `"She said ""hi"""`. -/
theorem c6_csv_serialization (ls : List (List Char)) (t : List Char) :
    (chars "\"Extracted Text\"\n").isPrefixOf (interplexCsv ls) = true ∧
    ennoviCsv ls = '\uFEFF' :: interplexCsv ls ∧
    (csvField t).count '"' = 2 * t.count '"' + 2 ∧
    csvField (chars "She said \"hi\"") = chars "\"She said \"\"hi\"\"\"" := by
  refine ⟨?_, rfl, ?_, by decide⟩
  · rw [ List.isPrefixOf_iff_prefix]
    exact ⟨_, rfl⟩
  · unfold csvField
    rw [List.count_cons, List.count_append, csvEscape_count, List.count_singleton]
    simp

/-- C7: content isolation equals a single removal pass with the union of the
script/style/noscript, header, footer and all-breakpoints-hidden selectors
applied to every descendant of the (detached) container copy, returning the full
text content of what remains; on the exemplar container every chrome node is
removed while ordinary text and the text of a section hidden on only two of the
three breakpoints are retained. -/
theorem c7_content_isolation (root : DomNode) :
    contentText root = textContent (removeMatching selAny root) ∧
    contentText exemplarContainer = chars "Keep1 Keep2 Keep3" :=
  ⟨congrArg textContent (chain_eq_node root), by decide⟩

/-- C10: the substrings `jQuery`, `console.log`, `console.error`, `console.warn`,
`.then(`, `.catch(`, `async ` and `await ` are tested unanchored, so any line
containing one of them anywhere — prose included — is flagged as code and
excluded from the part_000 Extraction Result of every text block. -/
theorem c10_unanchored_substrings (line text : List Char)
    (h : (containsSub (chars "jQuery") line || containsSub (chars "console.log") line ||
          containsSub (chars "console.error") line ||
          containsSub (chars "console.warn") line ||
          containsSub (chars ".then(") line || containsSub (chars ".catch(") line ||
          containsSub (chars "async ") line || containsSub (chars "await ") line) = true) :
    isJavaScriptLine line = true ∧ line ∉ ennoviLines text := by
  have hflag : isJavaScriptLine line = true := by
    unfold isJavaScriptLine
    rw [List.any_eq_true]
    simp only [Bool.or_eq_true] at h
    rcases h with ((((((h | h) | h) | h) | h) | h) | h) | h
    · exact ⟨patJQuery, by simp [jsPatterns], by simp [patJQuery, h]⟩
    · exact ⟨patConsole, by simp [jsPatterns], by simp [patConsole, h]⟩
    · exact ⟨patConsole, by simp [jsPatterns], by simp [patConsole, h]⟩
    · exact ⟨patConsole, by simp [jsPatterns], by simp [patConsole, h]⟩
    · exact ⟨patPromise, by simp [jsPatterns], by simp [patPromise, h]⟩
    · exact ⟨patPromise, by simp [jsPatterns], by simp [patPromise, h]⟩
    · refine ⟨patPromise, by simp [jsPatterns], ?_⟩
      have heq : chars "async " = chars "async" ++ [' '] := by decide
      rw [heq] at h
      have hws := containsSub_then_ws (w := chars "async") (c := ' ') (by decide) h
      simp [patPromise, hws]
    · refine ⟨patPromise, by simp [jsPatterns], ?_⟩
      have heq : chars "await " = chars "await" ++ [' '] := by decide
      rw [heq] at h
      have hws := containsSub_then_ws (w := chars "await") (c := ' ') (by decide) h
      simp [patPromise, hws]
  refine ⟨hflag, fun hmem => ?_⟩
  rw [ennoviLines_eq, List.mem_filter] at hmem
  have h2 := hmem.2
  simp [hflag] at h2

/-- C10 witness: a prose line mentioning console.log is removed. -/
theorem c10_unanchored_substrings_witness :
    (containsSub (chars "jQuery") (chars "We use console.log daily") ||
      containsSub (chars "console.log") (chars "We use console.log daily") ||
      containsSub (chars "console.error") (chars "We use console.log daily") ||
      containsSub (chars "console.warn") (chars "We use console.log daily") ||
      containsSub (chars ".then(") (chars "We use console.log daily") ||
      containsSub (chars ".catch(") (chars "We use console.log daily") ||
      containsSub (chars "async ") (chars "We use console.log daily") ||
      containsSub (chars "await ") (chars "We use console.log daily")) = true ∧
    (isJavaScriptLine (chars "We use console.log daily") = true ∧
      chars "We use console.log daily" ∉
        ennoviLines (chars "Welcome\nWe use console.log daily")) :=
  ⟨by decide, c10_unanchored_substrings (chars "We use console.log daily")
    (chars "Welcome\nWe use console.log daily") (by decide)⟩

/-- C4: in the part_000 variant the failure log is written exactly when some URL
failed, and the recorded failure list is precisely the URLs of the target list
whose iteration wrote no CSV artifact — navigation error, missing container, or
zero surviving lines — in processing order, each paired with the reason that
distinguishes its failure kind.  (The textScraper.js variant never writes a
failure log, so the claim is vacuous there.) -/
theorem c4_failure_log (ws : List (List Char × Outcome)) :
    (ennoviFailLog (runEnnovi ws).2).isSome = !(runEnnovi ws).2.isEmpty ∧
    (runEnnovi ws).2 =
      (ws.filter (fun p => !producesCsv p)).map (fun p => (p.1, failReason p.2)) := by
  constructor
  · unfold ennoviFailLog
    cases h : (runEnnovi ws).2.isEmpty <;> simp [h]
  · induction ws with
    | nil => rfl
    | cons p rest ih =>
      obtain ⟨url, oc⟩ := p
      cases oc with
      | navError m =>
        simp [runEnnovi, ennoviStep, producesCsv, failReason, List.filter_cons, ih]
      | noContainer =>
        simp [runEnnovi, ennoviStep, producesCsv, failReason, List.filter_cons, ih]
      | content t =>
        cases h : (ennoviLines t).isEmpty with
        | true =>
          simp [runEnnovi, ennoviStep, producesCsv, failReason, List.filter_cons, h, ih]
        | false =>
          simp [runEnnovi, ennoviStep, producesCsv, failReason, List.filter_cons, h, ih]
